import Mathlib

/-!
Verification development for `pyannote/audio/labeling/tasks/resegmentation.py`.

The file shallowly embeds the resegmentation components:
* `postprocess_y` — the label post-processor of `ResegmentationGenerator`;
* the `Resegmentation` driver: `n_classes`, `get_hypothesis`, `apply_iter`, `apply`;
* a small heap model of the Python dict-aliasing semantics of the two lines
  `current_file = dict(current_file)` / `current_file['annotation'] = hypothesis`.

External collaborators (the training primitive `fit_iter`, the inference
primitive `SequenceLabeling`, `pyannote.core` annotations, feature extraction)
are not part of the repository sources; following the spec they are treated as
uninterpreted parameters gathered in an `Env` structure, except where the spec
describes them concretely (the annotation data model, `np.argmax`).
-/

namespace Resegmentation

/-- Modelled from the spec: `pyannote.core.Annotation` (external to the
repository sources) — "a labeled timeline: ordered set of (start, end, label)
segments over one audio file, with a stable, ordered list of distinct labels". -/
structure Annot where
  segments : List (ℤ × ℤ × String)
  deriving DecidableEq

/-- Modelled from the spec: the stable, ordered list of distinct labels of an
annotation (`hypothesis.labels()` in the source). -/
def Annot.labels (a : Annot) : List String :=
  (a.segments.map (fun s => s.2.2)).dedup

/-- Helper for `np_argmax`: fold over the remaining entries keeping the pair
(index of the first maximum seen so far, its value); `i` is the index of the
head of `l` in the full row. -/
def np_argmax_go : List ℤ → Nat → Nat × ℤ → Nat × ℤ
  | [], _, best => best
  | v :: rest, i, (bi, bv) =>
      if bv < v then np_argmax_go rest (i + 1) (i, v)
      else np_argmax_go rest (i + 1) (bi, bv)

/-- Modelled from the spec (and numpy's documented behaviour): `np.argmax` over
one row returns the index of the first occurrence of the maximum value.  numpy
is external to the repository sources. -/
def np_argmax (row : List ℤ) : Nat :=
  match row with
  | [] => 0
  | v :: rest => (np_argmax_go rest 1 (0, v)).1

/-- Embedding of `ResegmentationGenerator.postprocess_y` (resegmentation.py,
lines 48-72).  The numpy vectorised operations `np.argmax(Y, axis=1) + 1`,
`np.sum(Y, axis=1) == 0` masking and the final `[:, np.newaxis]` reshape are
rendered row-wise: each row maps to the singleton `[label]` where `label` is
`argmax + 1`, overridden to `0` when the row sums to zero. -/
def postprocess_y (Y : List (List ℤ)) : List (List Int) :=
  Y.map (fun row =>
    let lab : Nat := np_argmax row + 1
    let lab : Nat := if row.sum = 0 then 0 else lab
    [(lab : Int)])

/-- The value component of `np_argmax_go` is the maximum of the initial best
value and all remaining entries. -/
theorem np_argmax_go_snd (l : List ℤ) : ∀ (i bi : Nat) (bv : ℤ),
    (np_argmax_go l i (bi, bv)).2 = l.foldl max bv := by
  induction l with
  | nil => intro i bi bv; simp [np_argmax_go]
  | cons v rest ih =>
      intro i bi bv
      by_cases h : bv < v
      · simp [np_argmax_go, h, ih, max_eq_right (le_of_lt h)]
      · simp [np_argmax_go, h, ih, max_eq_left (not_lt.mp h)]

/-- The index component of `np_argmax_go` is either the initial best index
(with the initial best value), or points at an entry of `l` holding the final
best value. -/
theorem np_argmax_go_fst (l : List ℤ) : ∀ (i bi : Nat) (bv : ℤ),
    ((np_argmax_go l i (bi, bv)).1 = bi ∧ (np_argmax_go l i (bi, bv)).2 = bv) ∨
    (∃ j, j < l.length ∧ (np_argmax_go l i (bi, bv)).1 = i + j ∧
      l.getD j 0 = (np_argmax_go l i (bi, bv)).2) := by
  induction l with
  | nil => intro i bi bv; left; simp [np_argmax_go]
  | cons v rest ih =>
      intro i bi bv
      by_cases h : bv < v
      · right
        rcases ih (i + 1) i v with ⟨h1, h2⟩ | ⟨j, hj, h1, h2⟩
        · exact ⟨0, by simp, by simp [np_argmax_go, h, h1], by simp [np_argmax_go, h, h2]⟩
        · exact ⟨j + 1, by simpa using hj,
            by simp [np_argmax_go, h, h1]; omega,
            by simpa [np_argmax_go, h] using h2⟩
      · rcases ih (i + 1) bi bv with ⟨h1, h2⟩ | ⟨j, hj, h1, h2⟩
        · left; exact ⟨by simp [np_argmax_go, h, h1], by simp [np_argmax_go, h, h2]⟩
        · right
          exact ⟨j + 1, by simpa using hj,
            by simp [np_argmax_go, h, h1]; omega,
            by simpa [np_argmax_go, h] using h2⟩

/-- Every element of a list is bounded by `foldl max` seeded with any value. -/
theorem le_foldl_max (l : List ℤ) : ∀ (a : ℤ),
    a ≤ l.foldl max a ∧ ∀ x ∈ l, x ≤ l.foldl max a := by
  induction l with
  | nil => intro a; simp
  | cons v rest ih =>
      intro a
      refine ⟨?_, ?_⟩
      · exact le_trans (le_max_left a v) (ih (max a v)).1
      · intro x hx
        rcases List.mem_cons.mp hx with rfl | hx
        · exact le_trans (le_max_right a x) (ih (max a x)).1
        · exact (ih (max a v)).2 x hx

/-- On a non-empty row, `np_argmax` returns a valid index whose entry is a
maximum of the row. -/
theorem np_argmax_spec (row : List ℤ) (hne : row ≠ []) :
    np_argmax row < row.length ∧ ∀ x ∈ row, x ≤ row.getD (np_argmax row) 0 := by
  match row, hne with
  | v :: rest, _ =>
    have hsnd := np_argmax_go_snd rest 1 0 v
    have hmax := le_foldl_max rest v
    rcases np_argmax_go_fst rest 1 0 v with ⟨h1, h2⟩ | ⟨j, hj, h1, h2⟩
    · constructor
      · simp [np_argmax, h1]
      · intro x hx
        have hval : (v :: rest).getD (np_argmax (v :: rest)) 0 = rest.foldl max v := by
          simp only [np_argmax, h1, List.getD_cons_zero]
          exact h2.symm.trans hsnd
        rw [hval]
        rcases List.mem_cons.mp hx with rfl | hx
        · exact hmax.1
        · exact hmax.2 x hx
    · constructor
      · simp only [np_argmax, h1, List.length_cons]
        omega
      · intro x hx
        have hval : (v :: rest).getD (np_argmax (v :: rest)) 0 = rest.foldl max v := by
          simp only [np_argmax, h1]
          have : (1 + j) = j + 1 := by omega
          rw [this, List.getD_cons_succ, h2, hsnd]
        rw [hval]
        rcases List.mem_cons.mp hx with rfl | hx
        · exact hmax.1
        · exact hmax.2 x hx

/-- Call-scoped state of a `Resegmentation` driver instance (the attributes the
source sets on `self`): `epochs` from `__init__` (line 83), and the attributes
`n_classes_` (line 139), `per_epoch` (line 136), `scores_` and `y_` (lines
123-124) written during `apply_iter`/`get_hypothesis`, absent (`none`) until
first written.  `S` and `Y` are the (external) types of the raw score matrix
and the integer label array. -/
structure Reseg (S Y : Type) where
  epochs : Nat
  n_classes_ : Option Nat := none
  per_epoch : Option ℤ := none
  scores_ : Option S := none
  y_ : Option Y := none
  deriving DecidableEq

/-- Embedding of the `Resegmentation` constructor (lines 79-88): a fresh driver
stores the configured epoch count and none of the call-scoped attributes. -/
def Reseg.init (S Y : Type) (epochs : Nat) : Reseg S Y :=
  { epochs := epochs }

/-- External collaborators of the driver, uninterpreted (spec section 6): the
inference primitive `SequenceLabeling.apply` (with its feature configuration
folded in), the `np.argmax` reduction over a score matrix, `from_numpy`
(labels list folded in), attaching an annotation to a file record, the
annotated duration and unique identifier of a file record, the `StackedRNN`
model constructor (all configuration except the class count folded in), and
the training primitive `fit_iter` taking (model, file wrapped in the dummy
protocol, log directory, epochs, gpu) and producing the per-epoch model
snapshots of its lazy sequence. -/
structure Env (F M Snap S Y : Type) where
  seqApply : Snap → F → S
  argmaxScores : S → Y
  from_numpy : Y → Annot
  setAnn : F → Annot → F
  annDur : F → ℤ
  getUri : F → String
  stackedRNN : Nat → M
  fit : M → F → Option String → Nat → Bool → List Snap

variable {F M Snap S Y : Type}

/-- Embedding of the `n_classes` property (lines 95-99): reading it before
`apply_iter` has set `n_classes_` raises `AttributeError`. -/
def n_classes (r : Reseg S Y) : Except String Nat :=
  match r.n_classes_ with
  | none => Except.error "AttributeError: Call .apply() to set n_classes attribute"
  | some n => Except.ok n

/-- Embedding of `Resegmentation.get_hypothesis` (lines 116-126): run the
inference primitive on the file, store the raw scores and their argmax as
call-scoped attributes, and return the annotation rebuilt by `from_numpy`. -/
def get_hypothesis (env : Env F M Snap S Y) (r : Reseg S Y) (model : Snap)
    (current_file : F) : Reseg S Y × Annot :=
  let scores := env.seqApply model current_file
  let y := env.argmaxScores scores
  ({ r with scores_ := some scores, y_ := some y }, env.from_numpy y)

/-- Embedding of lines 150-152 of the source.  The source line 152 reads
`log_dir = 'f{log_dir}/{uri}'`: the `f` stands inside the quotes, so the
right-hand side is the sixteen-character literal string, not a formatted
path — the computed unique identifier `uri` is unused. -/
def formatLogDir (log_dir : Option String) (uri : String) : Option String :=
  match log_dir with
  | none => none
  | some _ => some "f\x7blog_dir\x7d/\x7buri\x7d"

/-- Modelled from the spec: the path convention the spec states for the log
directory, `<log_dir>/<unique file identifier>` (spec section 6). -/
def specLogDir (log_dir : Option String) (uri : String) : Option String :=
  log_dir.map (fun d => d ++ "/" ++ uri)

/-- Embedding of the `for iteration in self.fit_iter(...)` loop of
`apply_iter` (lines 154-160), consuming the training primitive's lazy
sequence `snaps`.  Arguments beyond the sequence: driver state, the local
`hypothesis` variable, and the loop variable `iteration` (`none` while
unbound).  Returns the final driver state, the final value of `hypothesis`,
the final binding of `iteration`, the list of (state, hypothesis) pairs at
the yield points inside the loop, and the number of `get_hypothesis` calls. -/
def apply_iter_loop (env : Env F M Snap S Y) (partialFlag : Bool)
    (current_file : F) :
    List Snap → Reseg S Y → Annot → Option Snap →
      Reseg S Y × Annot × Option Snap × List (Reseg S Y × Annot) × Nat
  | [], r, hyp, it => (r, hyp, it, [], 0)
  | model :: rest, r, hyp, _ =>
      if partialFlag then
        match get_hypothesis env r model current_file with
        | (r1, h1) =>
            match apply_iter_loop env partialFlag current_file rest r1 h1
                (some model) with
            | (rF, hF, itF, ys, c) => (rF, hF, itF, (r1, h1) :: ys, c + 1)
      else
        apply_iter_loop env partialFlag current_file rest r hyp (some model)

/-- Embedding of `Resegmentation.apply_iter` (lines 128-166).  The generator
is rendered as a function returning either the runtime error raised when the
sequence is pulled, or the list of (driver state, hypothesis) pairs at the
yield points together with the final driver state and the total number of
`get_hypothesis` invocations.  Control flow of the source: copy the file
record and attach the hypothesis; set `per_epoch` and `n_classes_`; build the
`StackedRNN` model via the `n_classes` property; rewrite `log_dir` (lines
150-152); loop over `fit_iter`, yielding after each epoch when `partial` is
true; after the loop, when `partial` is false, extract a hypothesis from the
last `iteration` (a `NameError` when the loop never ran); finally yield the
current `hypothesis` once. -/
def apply_iter (env : Env F M Snap S Y) (r0 : Reseg S Y) (current_file : F)
    (hypothesis : Annot) (partialFlag : Bool) (gpu : Bool)
    (log_dir : Option String) :
    Except String (List (Reseg S Y × Annot) × Reseg S Y × Nat) :=
  let current_file' := env.setAnn current_file hypothesis
  let r1 : Reseg S Y :=
    { r0 with per_epoch := some (env.annDur current_file'),
              n_classes_ := some (hypothesis.labels.length + 1) }
  match n_classes r1 with
  | Except.error e => Except.error e
  | Except.ok nc =>
      let model := env.stackedRNN nc
      let log_dir' := formatLogDir log_dir (env.getUri current_file')
      let snaps := env.fit model current_file' log_dir' r1.epochs gpu
      match apply_iter_loop env partialFlag current_file' snaps r1 hypothesis
          none with
      | (rF, hypF, iterVar, ys, c) =>
          let post : Except String (Reseg S Y × Annot) :=
            if partialFlag then Except.ok (rF, hypF)
            else
              match iterVar with
              | none => Except.error "NameError: name iteration is not defined"
              | some m => Except.ok (get_hypothesis env rF m current_file')
          match post with
          | Except.error e => Except.error e
          | Except.ok (rG, hG) =>
              Except.ok (ys ++ [(rG, hG)], rG,
                if partialFlag then c else c + 1)

/-- Embedding of `Resegmentation.apply` (lines 168-173): drain
`apply_iter(current_file, hypothesis, partial=False, gpu=gpu)` — note the
source does not forward its `log_dir` argument — and return the last value
bound to `hypothesis` (the parameter itself when nothing was yielded),
together with the driver state. -/
def apply (env : Env F M Snap S Y) (r0 : Reseg S Y) (current_file : F)
    (hypothesis : Annot) (gpu : Bool) (log_dir : Option String) :
    Except String (Annot × Reseg S Y) :=
  match apply_iter env r0 current_file hypothesis false gpu none with
  | Except.error e => Except.error e
  | Except.ok (ys, rF, _) => Except.ok ((ys.map Prod.snd).getLastD hypothesis, rF)

/-- The driver state after one `get_hypothesis` call on snapshot `m`: only the
call-scoped attributes `scores_` and `y_` change. -/
def setSY (env : Env F M Snap S Y) (current_file : F) (r : Reseg S Y)
    (m : Snap) : Reseg S Y :=
  { r with scores_ := some (env.seqApply m current_file),
           y_ := some (env.argmaxScores (env.seqApply m current_file)) }

/-- The hypothesis `get_hypothesis` returns for snapshot `m`: it depends only
on the snapshot and the file, not on the driver state. -/
def hypOf (env : Env F M Snap S Y) (current_file : F) (m : Snap) : Annot :=
  env.from_numpy (env.argmaxScores (env.seqApply m current_file))

theorem get_hypothesis_eq (env : Env F M Snap S Y) (r : Reseg S Y) (m : Snap)
    (f : F) : get_hypothesis env r m f = (setSY env f r m, hypOf env f m) := rfl

/-- Overwriting `scores_` and `y_` twice keeps only the second write. -/
theorem setSY_setSY (env : Env F M Snap S Y) (f : F) (r : Reseg S Y)
    (m1 m2 : Snap) : setSY env f (setSY env f r m1) m2 = setSY env f r m2 := rfl

/-- The value of the loop variable `iteration` after the loop: the last
element of the consumed sequence when there is one, the incoming binding
otherwise. -/
def lastIter (snaps : List Snap) (it : Option Snap) : Option Snap :=
  match snaps.getLast? with
  | none => it
  | some m => some m

theorem lastIter_cons (m : Snap) (rest : List Snap) (it : Option Snap) :
    lastIter (m :: rest) it = lastIter rest (some m) := by
  cases rest with
  | nil => simp [lastIter]
  | cons x xs =>
      rw [lastIter, lastIter, List.getLast?_cons_cons]
      cases h : (x :: xs).getLast? with
      | none => exact absurd h (by simp)
      | some y => rfl

/-- Closed form of the epoch loop when `partial` is true: one yield per
snapshot, each recomputing `scores_`/`y_` and the hypothesis from that
snapshot alone. -/
theorem apply_iter_loop_true (env : Env F M Snap S Y) (f : F) :
    ∀ (snaps : List Snap) (r : Reseg S Y) (hyp : Annot) (it : Option Snap),
    apply_iter_loop env true f snaps r hyp it =
      ((snaps.map (setSY env f r)).getLastD r,
       (snaps.map (hypOf env f)).getLastD hyp,
       lastIter snaps it,
       snaps.map (fun m => (setSY env f r m, hypOf env f m)),
       snaps.length) := by
  intro snaps
  induction snaps with
  | nil => intro r hyp it; simp [apply_iter_loop, lastIter]
  | cons m rest ih =>
      intro r hyp it
      have hmap1 : rest.map (setSY env f (setSY env f r m)) =
          rest.map (setSY env f r) := by
        apply List.map_congr_left
        intro x _
        exact setSY_setSY env f r m x
      have hmap2 : rest.map (fun x => (setSY env f (setSY env f r m) x,
          hypOf env f x)) = rest.map (fun x => (setSY env f r x, hypOf env f x)) := by
        apply List.map_congr_left
        intro x _
        rw [setSY_setSY]
      simp only [apply_iter_loop, if_pos, get_hypothesis_eq, ih,
        List.map_cons, List.getLastD_cons, lastIter_cons, List.length_cons,
        hmap1, hmap2]

/-- Closed form of the epoch loop when `partial` is false: no yields, no
`get_hypothesis` calls, state and hypothesis untouched; only the loop
variable advances. -/
theorem apply_iter_loop_false (env : Env F M Snap S Y) (f : F) :
    ∀ (snaps : List Snap) (r : Reseg S Y) (hyp : Annot) (it : Option Snap),
    apply_iter_loop env false f snaps r hyp it = (r, hyp, lastIter snaps it, [], 0) := by
  intro snaps
  induction snaps with
  | nil => intro r hyp it; simp [apply_iter_loop, lastIter]
  | cons m rest ih =>
      intro r hyp it
      simp only [apply_iter_loop, if_neg, Bool.false_eq_true, not_false_eq_true,
        ih, lastIter_cons]

/-- The driver state set up at the start of `apply_iter` (lines 132-139). -/
def setupState (env : Env F M Snap S Y) (r0 : Reseg S Y) (current_file : F)
    (hypothesis : Annot) : Reseg S Y :=
  { r0 with per_epoch := some (env.annDur (env.setAnn current_file hypothesis)),
            n_classes_ := some (hypothesis.labels.length + 1) }

/-- The snapshot sequence the training primitive returns inside `apply_iter`,
with the arguments the source passes to `fit_iter` (lines 141-156). -/
def trainedSnaps (env : Env F M Snap S Y) (r0 : Reseg S Y) (current_file : F)
    (hypothesis : Annot) (gpu : Bool) (log_dir : Option String) : List Snap :=
  env.fit (env.stackedRNN (hypothesis.labels.length + 1))
    (env.setAnn current_file hypothesis)
    (formatLogDir log_dir (env.getUri (env.setAnn current_file hypothesis)))
    r0.epochs gpu

/-- Closed form of `apply_iter` with `partial=True`. -/
theorem apply_iter_true_eq (env : Env F M Snap S Y) (r0 : Reseg S Y) (f : F)
    (hyp0 : Annot) (gpu : Bool) (log_dir : Option String) :
    apply_iter env r0 f hyp0 true gpu log_dir =
      Except.ok
        ((trainedSnaps env r0 f hyp0 gpu log_dir).map
            (fun m => (setSY env (env.setAnn f hyp0) (setupState env r0 f hyp0) m,
                       hypOf env (env.setAnn f hyp0) m)) ++
          [(((trainedSnaps env r0 f hyp0 gpu log_dir).map
               (setSY env (env.setAnn f hyp0) (setupState env r0 f hyp0))).getLastD
              (setupState env r0 f hyp0),
            ((trainedSnaps env r0 f hyp0 gpu log_dir).map
               (hypOf env (env.setAnn f hyp0))).getLastD hyp0)],
         ((trainedSnaps env r0 f hyp0 gpu log_dir).map
            (setSY env (env.setAnn f hyp0) (setupState env r0 f hyp0))).getLastD
           (setupState env r0 f hyp0),
         (trainedSnaps env r0 f hyp0 gpu log_dir).length) := by
  simp only [apply_iter, n_classes, apply_iter_loop_true, trainedSnaps, setupState,
    if_pos]

/-- Closed form of `apply_iter` with `partial=False`: a `NameError` when the
training sequence is empty, otherwise a single yield extracted from the last
snapshot. -/
theorem apply_iter_false_eq (env : Env F M Snap S Y) (r0 : Reseg S Y) (f : F)
    (hyp0 : Annot) (gpu : Bool) (log_dir : Option String) :
    apply_iter env r0 f hyp0 false gpu log_dir =
      match (trainedSnaps env r0 f hyp0 gpu log_dir).getLast? with
      | none => Except.error "NameError: name iteration is not defined"
      | some m =>
          Except.ok
            ([(setSY env (env.setAnn f hyp0) (setupState env r0 f hyp0) m,
               hypOf env (env.setAnn f hyp0) m)],
             setSY env (env.setAnn f hyp0) (setupState env r0 f hyp0) m, 1) := by
  simp only [apply_iter, n_classes, apply_iter_loop_false, trainedSnaps, setupState,
    lastIter, get_hypothesis_eq]
  cases hlast : (env.fit (env.stackedRNN (hyp0.labels.length + 1))
      (env.setAnn f hyp0)
      (formatLogDir log_dir (env.getUri (env.setAnn f hyp0)))
      r0.epochs gpu).getLast? with
  | none => simp
  | some m => simp

instance exceptDecEq {ε α : Type} [DecidableEq ε] [DecidableEq α] :
    DecidableEq (Except ε α)
  | Except.error e1, Except.error e2 =>
      if h : e1 = e2 then isTrue (by rw [h])
      else isFalse (fun hc => h (Except.error.inj hc))
  | Except.error _, Except.ok _ => isFalse (fun hc => Except.noConfusion hc)
  | Except.ok _, Except.error _ => isFalse (fun hc => Except.noConfusion hc)
  | Except.ok a1, Except.ok a2 =>
      if h : a1 = a2 then isTrue (by rw [h])
      else isFalse (fun hc => h (Except.ok.inj hc))

/-- Appending one element and reading at the old length returns that element. -/
theorem getD_append_length {α : Type} (L : List α) (x d : α) :
    (L ++ [x]).getD L.length d = x := by
  rw [List.getD_append_right _ _ _ _ (Nat.le_refl _)]
  simp

/-- Reading a non-empty list at its last index agrees with `getLastD`, for any
defaults. -/
theorem getD_length_sub_one {α : Type} :
    ∀ (L : List α), L ≠ [] → ∀ (d e : α), L.getD (L.length - 1) d = L.getLastD e := by
  intro L
  induction L with
  | nil => intro h; exact absurd rfl h
  | cons a l ih =>
      intro _ d e
      cases l with
      | nil => simp
      | cons b t =>
          have h2 : (a :: b :: t).length - 1 = (b :: t).length - 1 + 1 := by
            simp
          rw [h2, List.getD_cons_succ, List.getLastD_cons, ih (by simp) d a]

/-- The `getLastD` of a list is the default or one of its members. -/
theorem getLastD_mem {α : Type} :
    ∀ (L : List α) (d : α), L.getLastD d = d ∨ L.getLastD d ∈ L := by
  intro L
  induction L with
  | nil => intro d; left; rfl
  | cons a l ih =>
      intro d
      rw [List.getLastD_cons]
      rcases ih a with h | h
      · right; rw [h]; exact List.mem_cons_self a l
      · right; exact List.mem_cons_of_mem a h

/-- C2: for every (samples, speakers) matrix of non-negative values,
`postprocess_y` returns one singleton integer row per input row; a row of sum
exactly zero is labeled `[0]`, and every other row is labeled one plus an
index of a maximum-valued channel of that row; in particular the rows
`[[0,0],[3,1],[0,0],[1,5]]` produce the column `[[0],[1],[0],[2]]`. -/
theorem c2_postprocess_y_labels (Y : List (List ℤ))
    (hnn : ∀ row ∈ Y, ∀ v ∈ row, 0 ≤ v) :
    ((postprocess_y Y).length = Y.length ∧
      ∀ out ∈ postprocess_y Y, out.length = 1) ∧
    (∀ i, i < Y.length →
      ((Y.getD i []).sum = 0 → (postprocess_y Y).getD i [] = [0]) ∧
      ((Y.getD i []).sum ≠ 0 → ∃ k, k < (Y.getD i []).length ∧
        (postprocess_y Y).getD i [] = [(k : Int) + 1] ∧
        ∀ v ∈ Y.getD i [], v ≤ (Y.getD i []).getD k 0)) ∧
    postprocess_y [[0, 0], [3, 1], [0, 0], [1, 5]] = [[0], [1], [0], [2]] := by
  refine ⟨⟨by simp [postprocess_y], ?_⟩, ?_, ?_⟩
  · intro out hout
    rcases List.mem_map.mp hout with ⟨row, _, hrow⟩
    rw [← hrow]
    rfl
  · intro i hi
    have hlen : i < (postprocess_y Y).length := by simpa [postprocess_y] using hi
    have hout : (postprocess_y Y).getD i [] =
        [(((if (Y.getD i []).sum = 0 then 0 else np_argmax (Y.getD i []) + 1) :
            Nat) : Int)] := by
      rw [List.getD_eq_getElem _ _ hlen, List.getD_eq_getElem _ _ hi]
      simp [postprocess_y]
    constructor
    · intro hsum
      rw [hout, if_pos hsum]
      simp
    · intro hsum
      have hne : Y.getD i [] ≠ [] := by
        intro hempty
        exact hsum (by rw [hempty]; rfl)
      obtain ⟨hk, hmax⟩ := np_argmax_spec (Y.getD i []) hne
      refine ⟨np_argmax (Y.getD i []), hk, ?_, hmax⟩
      rw [hout, if_neg hsum]
      push_cast
      ring_nf
  · decide

/-- Witness for C2 at the matrix from the spec. -/
theorem c2_witness :
    (∀ row ∈ ([[0, 0], [3, 1], [0, 0], [1, 5]] : List (List ℤ)),
      ∀ v ∈ row, 0 ≤ v) ∧
    (((postprocess_y [[0, 0], [3, 1], [0, 0], [1, 5]]).length =
        ([[0, 0], [3, 1], [0, 0], [1, 5]] : List (List ℤ)).length ∧
      ∀ out ∈ postprocess_y [[0, 0], [3, 1], [0, 0], [1, 5]], out.length = 1) ∧
    (∀ i, i < ([[0, 0], [3, 1], [0, 0], [1, 5]] : List (List ℤ)).length →
      ((([[0, 0], [3, 1], [0, 0], [1, 5]] : List (List ℤ)).getD i []).sum = 0 →
        (postprocess_y [[0, 0], [3, 1], [0, 0], [1, 5]]).getD i [] = [0]) ∧
      ((([[0, 0], [3, 1], [0, 0], [1, 5]] : List (List ℤ)).getD i []).sum ≠ 0 →
        ∃ k, k < (([[0, 0], [3, 1], [0, 0], [1, 5]] : List (List ℤ)).getD i []).length ∧
        (postprocess_y [[0, 0], [3, 1], [0, 0], [1, 5]]).getD i [] = [(k : Int) + 1] ∧
        ∀ v ∈ ([[0, 0], [3, 1], [0, 0], [1, 5]] : List (List ℤ)).getD i [],
          v ≤ (([[0, 0], [3, 1], [0, 0], [1, 5]] : List (List ℤ)).getD i []).getD k 0)) ∧
    postprocess_y [[0, 0], [3, 1], [0, 0], [1, 5]] = [[0], [1], [0], [2]]) :=
  ⟨by decide, c2_postprocess_y_labels [[0, 0], [3, 1], [0, 0], [1, 5]] (by decide)⟩

/-- Concrete collaborator instantiation used by witnesses: snapshots, files,
scores and labels are all naturals; the trainer yields one snapshot per
configured epoch. -/
def envW : Env Nat Nat Nat Nat Nat where
  seqApply := fun m _ => m
  argmaxScores := fun s => s + 10
  from_numpy := fun y => { segments := [(0, 1, toString y)] }
  setAnn := fun f _ => f + 100
  annDur := fun _ => 0
  getUri := fun f => toString f
  stackedRNN := fun n => n
  fit := fun _ _ _ e _ => List.range e

/-- Concrete two-speaker initial hypothesis used by witnesses. -/
def annW : Annot := { segments := [(0, 1, "alice"), (1, 2, "bob")] }

/-- C1: with `partial=True` and a configured epoch count `E ≥ 1` (the
training primitive yielding one snapshot per configured epoch), `apply_iter`
yields exactly `E + 1` hypotheses — `E` from inside the epoch loop plus the
one unconditional trailing yield — and runs to completion without error. -/
theorem c1_apply_iter_emits_epochs_plus_one (env : Env F M Snap S Y)
    (r0 : Reseg S Y) (f : F) (hyp0 : Annot) (gpu : Bool)
    (log_dir : Option String) (E : Nat)
    (hsnaps : (trainedSnaps env r0 f hyp0 gpu log_dir).length = r0.epochs)
    (hE : r0.epochs = E) (hE1 : 1 ≤ E) :
    ∃ ys rF, apply_iter env r0 f hyp0 true gpu log_dir =
        Except.ok (ys, rF, E) ∧ ys.length = E + 1 := by
  rw [apply_iter_true_eq, hsnaps, hE]
  refine ⟨_, _, rfl, ?_⟩
  simp [hsnaps, hE]

/-- Witness for C1 with three configured epochs. -/
theorem c1_witness :
    ((trainedSnaps envW (Reseg.init Nat Nat 3) 0 annW false none).length =
      (Reseg.init Nat Nat 3).epochs) ∧ ((Reseg.init Nat Nat 3).epochs = 3) ∧
      (1 ≤ 3) ∧
    (∃ ys rF, apply_iter envW (Reseg.init Nat Nat 3) 0 annW true false none =
        Except.ok (ys, rF, 3) ∧ ys.length = 3 + 1) :=
  ⟨by decide, rfl, by decide,
    c1_apply_iter_emits_epochs_plus_one envW (Reseg.init Nat Nat 3) 0 annW
      false none 3 (by decide) rfl (by decide)⟩

/-- C3: with `partial=False` and a configured epoch count `E ≥ 1`,
`apply_iter` yields exactly one hypothesis, extracted (one single
`get_hypothesis` call, the third component) from the last snapshot of the
training sequence — i.e. only after all `E` epochs completed. -/
theorem c3_apply_iter_single_final_yield (env : Env F M Snap S Y)
    (r0 : Reseg S Y) (f : F) (hyp0 : Annot) (gpu : Bool)
    (log_dir : Option String) (E : Nat)
    (hsnaps : (trainedSnaps env r0 f hyp0 gpu log_dir).length = r0.epochs)
    (hE : r0.epochs = E) (hE1 : 1 ≤ E) :
    ∃ m, (trainedSnaps env r0 f hyp0 gpu log_dir).getLast? = some m ∧
      apply_iter env r0 f hyp0 false gpu log_dir =
        Except.ok
          ([(setSY env (env.setAnn f hyp0) (setupState env r0 f hyp0) m,
             hypOf env (env.setAnn f hyp0) m)],
           setSY env (env.setAnn f hyp0) (setupState env r0 f hyp0) m, 1) := by
  have hne : trainedSnaps env r0 f hyp0 gpu log_dir ≠ [] := by
    intro h0
    rw [h0] at hsnaps
    simp at hsnaps
    omega
  obtain ⟨m, hm⟩ := Option.isSome_iff_exists.mp
    (List.getLast?_isSome.mpr hne)
  refine ⟨m, hm, ?_⟩
  rw [apply_iter_false_eq, hm]

/-- Witness for C3 with three configured epochs. -/
theorem c3_witness :
    ((trainedSnaps envW (Reseg.init Nat Nat 3) 0 annW false none).length =
      (Reseg.init Nat Nat 3).epochs) ∧ ((Reseg.init Nat Nat 3).epochs = 3) ∧
      (1 ≤ 3) ∧
    (∃ m, (trainedSnaps envW (Reseg.init Nat Nat 3) 0 annW false none).getLast? =
        some m ∧
      apply_iter envW (Reseg.init Nat Nat 3) 0 annW false false none =
        Except.ok
          ([(setSY envW (envW.setAnn 0 annW) (setupState envW (Reseg.init Nat Nat 3) 0 annW) m,
             hypOf envW (envW.setAnn 0 annW) m)],
           setSY envW (envW.setAnn 0 annW) (setupState envW (Reseg.init Nat Nat 3) 0 annW) m,
           1)) :=
  ⟨by decide, rfl, by decide,
    c3_apply_iter_single_final_yield envW (Reseg.init Nat Nat 3) 0 annW
      false none 3 (by decide) rfl (by decide)⟩

/-- C9: with `partial=True` and epoch count `E ≥ 1`, `get_hypothesis` is
invoked exactly `E` times (the third component of the result), and the last
two yielded hypotheses are the same: the trailing yield re-emits the final
in-loop hypothesis without a further extraction. -/
theorem c9_extractor_calls_and_duplicate_last (env : Env F M Snap S Y)
    (r0 : Reseg S Y) (f : F) (hyp0 : Annot) (gpu : Bool)
    (log_dir : Option String) (E : Nat)
    (hsnaps : (trainedSnaps env r0 f hyp0 gpu log_dir).length = r0.epochs)
    (hE : r0.epochs = E) (hE1 : 1 ≤ E) :
    ∃ ys rF, apply_iter env r0 f hyp0 true gpu log_dir =
        Except.ok (ys, rF, E) ∧ ys.length = E + 1 ∧
      (ys.map Prod.snd).getD (E - 1) hyp0 = (ys.map Prod.snd).getD E hyp0 := by
  rw [apply_iter_true_eq, hsnaps, hE]
  refine ⟨_, _, rfl, by simp [hsnaps, hE], ?_⟩
  have hL : ((trainedSnaps env r0 f hyp0 gpu log_dir).map
      (hypOf env (env.setAnn f hyp0))).length = E := by
    simp [hsnaps, hE]
  have hLne : (trainedSnaps env r0 f hyp0 gpu log_dir).map
      (hypOf env (env.setAnn f hyp0)) ≠ [] := by
    intro h0
    rw [h0] at hL
    simp at hL
    omega
  rw [List.map_append, List.map_map]
  have hcomp : Prod.snd ∘ (fun m =>
      (setSY env (env.setAnn f hyp0) (setupState env r0 f hyp0) m,
       hypOf env (env.setAnn f hyp0) m)) = hypOf env (env.setAnn f hyp0) := rfl
  rw [hcomp]
  rw [List.getD_append _ _ _ _ (by rw [hL]; omega)]
  have hmapsnd : List.map Prod.snd
      [(((trainedSnaps env r0 f hyp0 gpu log_dir).map
          (setSY env (env.setAnn f hyp0) (setupState env r0 f hyp0))).getLastD
          (setupState env r0 f hyp0),
        ((trainedSnaps env r0 f hyp0 gpu log_dir).map
          (hypOf env (env.setAnn f hyp0))).getLastD hyp0)] =
      [((trainedSnaps env r0 f hyp0 gpu log_dir).map
          (hypOf env (env.setAnn f hyp0))).getLastD hyp0] := rfl
  rw [hmapsnd]
  rw [show E = ((trainedSnaps env r0 f hyp0 gpu log_dir).map
      (hypOf env (env.setAnn f hyp0))).length from hL.symm]
  rw [getD_append_length]
  rw [getD_length_sub_one _ hLne]

/-- Witness for C9 with three configured epochs. -/
theorem c9_witness :
    ((trainedSnaps envW (Reseg.init Nat Nat 3) 0 annW false none).length =
      (Reseg.init Nat Nat 3).epochs) ∧ ((Reseg.init Nat Nat 3).epochs = 3) ∧
      (1 ≤ 3) ∧
    (∃ ys rF, apply_iter envW (Reseg.init Nat Nat 3) 0 annW true false none =
        Except.ok (ys, rF, 3) ∧ ys.length = 3 + 1 ∧
      (ys.map Prod.snd).getD (3 - 1) annW = (ys.map Prod.snd).getD 3 annW) :=
  ⟨by decide, rfl, by decide,
    c9_extractor_calls_and_duplicate_last envW (Reseg.init Nat Nat 3) 0 annW
      false none 3 (by decide) rfl (by decide)⟩

/-- C10: with `partial=False` and a training sequence producing no epochs,
pulling the generator raises the undefined-variable error (`iteration` is
read after the loop without ever being bound), and no hypothesis is
yielded. -/
theorem c10_zero_epochs_name_error (env : Env F M Snap S Y)
    (r0 : Reseg S Y) (f : F) (hyp0 : Annot) (gpu : Bool)
    (log_dir : Option String)
    (h0 : trainedSnaps env r0 f hyp0 gpu log_dir = []) :
    apply_iter env r0 f hyp0 false gpu log_dir =
      Except.error "NameError: name iteration is not defined" := by
  rw [apply_iter_false_eq, h0]
  rfl

/-- Witness for C10 with zero configured epochs. -/
theorem c10_witness :
    (trainedSnaps envW (Reseg.init Nat Nat 0) 0 annW false none = []) ∧
    apply_iter envW (Reseg.init Nat Nat 0) 0 annW false false none =
      Except.error "NameError: name iteration is not defined" :=
  ⟨by decide,
    c10_zero_epochs_name_error envW (Reseg.init Nat Nat 0) 0 annW false none
      (by decide)⟩

/-- Every driver state observable through a successful `apply_iter` run — the
state at each yield point and the final state — carries
`n_classes_ = some (number of labels of the initial hypothesis + 1)`: the
value is set before the loop and only `scores_`/`y_` are written later. -/
theorem apply_iter_state_classes (env : Env F M Snap S Y) (r0 : Reseg S Y)
    (f : F) (hyp0 : Annot) (pf gpu : Bool) (log_dir : Option String)
    (ys : List (Reseg S Y × Annot)) (rF : Reseg S Y) (c : Nat)
    (hrun : apply_iter env r0 f hyp0 pf gpu log_dir = Except.ok (ys, rF, c)) :
    rF.n_classes_ = some (hyp0.labels.length + 1) ∧
    ∀ p ∈ ys, p.1.n_classes_ = some (hyp0.labels.length + 1) := by
  cases pf with
  | false =>
      rw [apply_iter_false_eq] at hrun
      cases hlast : (trainedSnaps env r0 f hyp0 gpu log_dir).getLast? with
      | none =>
          rw [hlast] at hrun
          exact absurd hrun (by simp)
      | some m =>
          rw [hlast] at hrun
          simp only [Except.ok.injEq, Prod.mk.injEq] at hrun
          obtain ⟨hys, hrF, -⟩ := hrun
          subst hys hrF
          exact ⟨rfl, by intro p hp; rcases List.mem_singleton.mp hp with rfl; rfl⟩
  | true =>
      rw [apply_iter_true_eq] at hrun
      simp only [Except.ok.injEq, Prod.mk.injEq] at hrun
      obtain ⟨hys, hrF, -⟩ := hrun
      subst hys hrF
      have hlastst : (((trainedSnaps env r0 f hyp0 gpu log_dir).map
          (setSY env (env.setAnn f hyp0) (setupState env r0 f hyp0))).getLastD
          (setupState env r0 f hyp0)).n_classes_ =
          some (hyp0.labels.length + 1) := by
        rcases getLastD_mem ((trainedSnaps env r0 f hyp0 gpu log_dir).map
            (setSY env (env.setAnn f hyp0) (setupState env r0 f hyp0)))
            (setupState env r0 f hyp0) with h | h
        · rw [h]; rfl
        · rcases List.mem_map.mp h with ⟨m, -, hm⟩
          rw [← hm]
          rfl
      refine ⟨hlastst, ?_⟩
      intro p hp
      rcases List.mem_append.mp hp with hp | hp
      · rcases List.mem_map.mp hp with ⟨m, -, hm⟩
        rw [← hm]
        rfl
      · rcases List.mem_singleton.mp hp with rfl
        exact hlastst

/-- C5: after an `apply_iter` run and an `apply` run on an initial hypothesis
with `K` distinct labels, the `n_classes` property of the resulting driver
state — final state and the state at every yield point alike — answers
`K + 1`: the value is set once at the start of the call and never changed
afterwards. -/
theorem c5_n_classes_frozen (env : Env F M Snap S Y) (r0 : Reseg S Y) (f : F)
    (hyp0 : Annot) (pf gpu gpu2 : Bool) (log_dir log_dir2 : Option String)
    (K : Nat) (ys : List (Reseg S Y × Annot)) (rF : Reseg S Y) (c : Nat)
    (hypF : Annot) (rF2 : Reseg S Y)
    (hK : hyp0.labels.length = K)
    (hrun : apply_iter env r0 f hyp0 pf gpu log_dir = Except.ok (ys, rF, c))
    (hrun2 : Resegmentation.apply env r0 f hyp0 gpu2 log_dir2 =
      Except.ok (hypF, rF2)) :
    n_classes rF = Except.ok (K + 1) ∧
    (∀ p ∈ ys, n_classes p.1 = Except.ok (K + 1)) ∧
    n_classes rF2 = Except.ok (K + 1) := by
  have hnc : ∀ r : Reseg S Y, r.n_classes_ = some (K + 1) →
      n_classes r = Except.ok (K + 1) := by
    intro r h
    simp [n_classes, h]
  obtain ⟨h1, h2⟩ := apply_iter_state_classes env r0 f hyp0 pf gpu log_dir
    ys rF c hrun
  rw [hK] at h1 h2
  have happ : Resegmentation.apply env r0 f hyp0 gpu2 log_dir2 =
      match apply_iter env r0 f hyp0 false gpu2 none with
      | Except.error e => Except.error e
      | Except.ok (ys2, rF2x, _) =>
          Except.ok ((ys2.map Prod.snd).getLastD hyp0, rF2x) := rfl
  cases hinner : apply_iter env r0 f hyp0 false gpu2 none with
  | error e =>
      rw [happ, hinner] at hrun2
      exact absurd hrun2 (by simp)
  | ok t =>
      obtain ⟨ys2, rF2x, c2⟩ := t
      rw [happ, hinner] at hrun2
      simp only [Except.ok.injEq, Prod.mk.injEq] at hrun2
      obtain ⟨-, hrF2⟩ := hrun2
      subst hrF2
      obtain ⟨h3, -⟩ := apply_iter_state_classes env r0 f hyp0 false gpu2 none
        ys2 rF2x c2 hinner
      rw [hK] at h3
      exact ⟨hnc rF h1, fun p hp => hnc p.1 (h2 p hp), hnc rF2x h3⟩

/-- Driver state reached in the C5 witness run. -/
def rW5 : Reseg Nat Nat where
  epochs := 1
  n_classes_ := some 3
  per_epoch := some 0
  scores_ := some 0
  y_ := some 10

/-- Hypothesis extracted in the C5 witness run. -/
def hypW5 : Annot := { segments := [(0, 1, "10")] }

/-- Witness for C5: one epoch, a two-speaker hypothesis, `n_classes = 3`. -/
theorem c5_witness :
    (annW.labels.length = 2) ∧
    (apply_iter envW (Reseg.init Nat Nat 1) 5 annW true false none =
      Except.ok ([(rW5, hypW5), (rW5, hypW5)], rW5, 1)) ∧
    (Resegmentation.apply envW (Reseg.init Nat Nat 1) 5 annW false none =
      Except.ok (hypW5, rW5)) ∧
    (n_classes rW5 = Except.ok (2 + 1) ∧
     (∀ p ∈ [(rW5, hypW5), (rW5, hypW5)], n_classes p.1 = Except.ok (2 + 1)) ∧
     n_classes rW5 = Except.ok (2 + 1)) :=
  ⟨by decide, by decide, by decide,
    c5_n_classes_frozen envW (Reseg.init Nat Nat 1) 5 annW true false false
      none none 2 [(rW5, hypW5), (rW5, hypW5)] rW5 1 hypW5 rW5
      (by decide) (by decide) (by decide)⟩

/-- C6: reading the `n_classes` property of a freshly constructed driver
raises the uninitialized-attribute error. -/
theorem c6_n_classes_uninitialized (S Y : Type) (epochs : Nat) :
    n_classes (Reseg.init S Y epochs) =
      Except.error "AttributeError: Call .apply() to set n_classes attribute" :=
  rfl

/-- C7: the path handed to the training primitive when a log directory is
given is the literal string from source line 152 (`f` typed inside the
quotes), not the `<log_dir>/<uri>` path the spec states. -/
theorem c7_log_dir_literal_bug :
    formatLogDir (some "/logs") "file1" = some "f\x7blog_dir\x7d/\x7buri\x7d" ∧
    formatLogDir (some "/logs") "file1" ≠ specLogDir (some "/logs") "file1" :=
  ⟨rfl, by decide⟩

/-- Concrete collaborator instantiation refuting C4 as stated: a training
primitive whose snapshot depends on the log-directory argument it receives. -/
def envC4 : Env Nat Nat Nat Nat Nat where
  seqApply := fun m _ => m
  argmaxScores := fun s => s
  from_numpy := fun y => { segments := List.replicate y (0, 1, "s") }
  setAnn := fun f _ => f
  annDur := fun _ => 0
  getUri := fun _ => "u"
  stackedRNN := fun n => n
  fit := fun _ _ l _ _ =>
    match l with
    | none => [5]
    | some _ => [7]

/-- Empty initial hypothesis for the C4 counterexample. -/
def annC4 : Annot := { segments := [] }

/-- Counterexample to C4 as stated: with a log directory supplied, `apply`
does not return the last element of `apply_iter` on the same inputs, because
`apply` calls `apply_iter` with `log_dir=None` (source line 170 forwards only
`gpu`). -/
theorem c4_counterexample :
    ¬ ((Resegmentation.apply envC4 (Reseg.init Nat Nat 1) 0 annC4 false
          (some "d")).map Prod.fst =
       (apply_iter envC4 (Reseg.init Nat Nat 1) 0 annC4 false false
          (some "d")).map
         (fun t => (t.1.map Prod.snd).getLastD annC4)) := by
  decide

/-- C4 (amended): `apply` ignores its log-directory argument and returns
exactly the last hypothesis of the sequence produced by
`apply_iter(file, hypothesis, partial=False, gpu)` with no log directory. -/
theorem c4_apply_drops_log_dir (env : Env F M Snap S Y) (r0 : Reseg S Y)
    (f : F) (hyp0 : Annot) (gpu : Bool) (log_dir : Option String) :
    Resegmentation.apply env r0 f hyp0 gpu log_dir =
      Resegmentation.apply env r0 f hyp0 gpu none ∧
    (Resegmentation.apply env r0 f hyp0 gpu log_dir).map Prod.fst =
      (apply_iter env r0 f hyp0 false gpu none).map
        (fun t => (t.1.map Prod.snd).getLastD hyp0) := by
  refine ⟨rfl, ?_⟩
  have happ : Resegmentation.apply env r0 f hyp0 gpu log_dir =
      match apply_iter env r0 f hyp0 false gpu none with
      | Except.error e => Except.error e
      | Except.ok (ys2, rF2x, _) =>
          Except.ok ((ys2.map Prod.snd).getLastD hyp0, rF2x) := rfl
  cases hinner : apply_iter env r0 f hyp0 false gpu none with
  | error e => rw [happ, hinner]; rfl
  | ok t =>
      obtain ⟨ys2, rF2x, c2⟩ := t
      rw [happ, hinner]
      rfl

/-- A Python dict with string keys, values abstracted to identifiers. -/
abbrev PyDict : Type := List (String × Nat)

/-- A heap of Python dicts: addresses below `next` are live.  This models the
aliasing semantics of the file records handed to `apply_iter`. -/
structure Heap where
  mem : Nat → PyDict
  next : Nat

/-- Dereference an address. -/
def Heap.get (h : Heap) (a : Nat) : PyDict := h.mem a

/-- `dict(d)`: allocate a fresh dict holding a shallow copy of the entries of
the dict at `a`. -/
def Heap.allocCopy (h : Heap) (a : Nat) : Heap × Nat :=
  ({ mem := fun b => if b = h.next then h.mem a else h.mem b,
     next := h.next + 1 }, h.next)

/-- `d[k] = v` on a plain association list: overwrite the entry when the key
is present, append it otherwise. -/
def assocSet (d : PyDict) (k : String) (v : Nat) : PyDict :=
  if (List.any d (fun p => p.1 = k)) then
    List.map (fun p => if p.1 = k then (k, v) else p) d
  else d ++ [(k, v)]

/-- `d[k] = v` through an address: mutate the dict stored at `a` in place. -/
def Heap.setKey (h : Heap) (a : Nat) (k : String) (v : Nat) : Heap :=
  { h with mem := fun b => if b = a then assocSet (h.mem a) k v else h.mem b }

/-- Embedding of source lines 132-133 with Python aliasing made explicit:
`current_file = dict(current_file)` rebinds the local name to a fresh copy,
and `current_file['annotation'] = hypothesis` then mutates that copy only.
Returns the heap after both statements and the address the local name holds. -/
def apply_iter_prologue (h : Heap) (caller : Nat) (hypVal : Nat) : Heap × Nat :=
  let hc := h.allocCopy caller
  let h2 := hc.1.setKey hc.2 "annotation" hypVal
  (h2, hc.2)

/-- C8: the caller's record is left unchanged by the prologue of
`apply_iter` — it neither gains nor replaces an `annotation` entry and no
other entry moves — while the driver's working record is the copy with the
hypothesis attached.  Since these two lines are the only writes to any file
record in `apply_iter`/`apply`, the caller's record survives the whole call
unchanged. -/
theorem c8_caller_record_unchanged (h : Heap) (caller : Nat) (hypVal : Nat)
    (hlive : caller < h.next) :
    Heap.get (apply_iter_prologue h caller hypVal).1 caller = Heap.get h caller ∧
    Heap.get (apply_iter_prologue h caller hypVal).1
        (apply_iter_prologue h caller hypVal).2 =
      assocSet (Heap.get h caller) "annotation" hypVal ∧
    (apply_iter_prologue h caller hypVal).2 ≠ caller := by
  have hne : caller ≠ h.next := by omega
  refine ⟨?_, ?_, ?_⟩
  · simp [apply_iter_prologue, Heap.get, Heap.setKey, Heap.allocCopy, hne]
  · simp [apply_iter_prologue, Heap.get, Heap.setKey, Heap.allocCopy]
  · simp [apply_iter_prologue, Heap.allocCopy]
    omega

/-- A concrete one-record heap for the C8 witness. -/
def heapW : Heap where
  mem := fun a => if a = 0 then [("uri", 1), ("annotation", 2)] else []
  next := 1

/-- Witness for C8 on a record that already has an `annotation` entry. -/
theorem c8_witness :
    (0 < heapW.next) ∧
    (Heap.get (apply_iter_prologue heapW 0 9).1 0 = Heap.get heapW 0 ∧
     Heap.get (apply_iter_prologue heapW 0 9).1 (apply_iter_prologue heapW 0 9).2 =
       assocSet (Heap.get heapW 0) "annotation" 9 ∧
     (apply_iter_prologue heapW 0 9).2 ≠ 0) :=
  ⟨by decide, c8_caller_record_unchanged heapW 0 9 (by decide)⟩

end Resegmentation
